import Mathlib

/-!
Verification of the ShaderLab-Server middleware/proxy core against its
natural-language specification.

The definitions below are a shallow embedding of the JavaScript source:
  * `dispatch` / `compose`      — src/plugins/express/compose.js
  * `Resp` / `setBody` / `setStatusCore` / `handleResponse`
                                — src/plugins/express/response.js and
                                  the finalization in src/plugins/express/index.js
  * `Layer` / `routerMatch` / `allowedMethodsRun`
                                — the router in src/plugins/express/response.js (router part)
  * `setRedirectHostRewrite`    — the proxy response pass in src/plugins/express/compose.js
                                  (web-outgoing passes)
  * `rewriteCookieProperty`     — the proxy shared helpers (src/unnamed/part_007)
  * `ctxOnerror`                — the request-context default error handler (src/unnamed/part_004)

JavaScript promises are modelled by an `Except String` result channel; the
per-request mutable state is threaded explicitly.
-/

/-! ## Composed pipeline (src/plugins/express/compose.js)

The JS `compose` closes over a mutable cursor `index` (initialised to `-1`)
that middleware code cannot touch.  We model the pipeline state as the pair
of that cursor and the user-visible context, and middleware as programs in a
small DSL (`MwProg`) that can mutate the context, invoke `next()` and observe
its settled result, or throw — but cannot access the cursor, exactly like the
JS closure discipline. -/

/-- Pipeline-internal state: the dispatch cursor (the JS closure variable
`index`, starting at `-1`) plus the user context. -/
structure PipeSt (σ : Type) where
  cursor : Int
  ctx : σ
deriving Repr

/-- A middleware step, as a program over the context `σ`: it may mutate the
context, call `next()` (observing whether the downstream pipeline resolved or
rejected), finish, or reject.  This mirrors the `(context, next)` callable
shape of src/plugins/express/compose.js while keeping the dispatch cursor out
of the middleware's reach. -/
inductive MwProg (σ : Type) where
  | done : MwProg σ
  | modifyCtx (f : σ → σ) (k : MwProg σ) : MwProg σ
  | callNext (k : Except String Unit → MwProg σ) : MwProg σ
  | reject (msg : String) : MwProg σ

/-- Run one middleware program, given the `next()` continuation supplied by
the dispatcher.  A `reject` is a failed asynchronous completion (the JS code
converts synchronous throws into rejected promises). -/
def runProg {σ : Type} : MwProg σ → (PipeSt σ → PipeSt σ × Except String Unit) →
    PipeSt σ → PipeSt σ × Except String Unit
  | .done, _, s => (s, .ok ())
  | .reject msg, _, s => (s, .error msg)
  | .modifyCtx f k, nextM, s => runProg k nextM { s with ctx := f s.ctx }
  | .callNext k, nextM, s =>
      let r := nextM s
      runProg (k r.2) nextM r.1

/-- `dispatch(i)` from src/plugins/express/compose.js lines 16-27, for a
pipeline invoked with no outer `next` (as `Application.handleRequest` invokes
it): if `i <= index` reject with "next() called multiple times"; otherwise set
the cursor to `i`; past the last step resolve immediately; otherwise run step
`i` with `dispatch (i+1)` as its `next`. -/
def dispatch {σ : Type} : Nat → List (MwProg σ) → PipeSt σ → PipeSt σ × Except String Unit
  | i, rest, s =>
    if (i : Int) ≤ s.cursor then (s, .error "next() called multiple times")
    else
      match rest with
      | [] => ({ s with cursor := (i : Int) }, .ok ())
      | p :: rest1 => runProg p (dispatch (i + 1) rest1) { s with cursor := (i : Int) }

/-- `compose(middleware)` returning the composite, immediately applied to a
fresh context: cursor starts at `-1` and dispatch begins at step `0`. -/
def compose {σ : Type} (mws : List (MwProg σ)) (c : σ) : PipeSt σ × Except String Unit :=
  dispatch 0 mws { cursor := -1, ctx := c }

/-- The ordering probe of the spec (§8 P1): a middleware that appends its
index to the context trace, awaits `next()`, appends its index again, and
rethrows any downstream rejection. -/
def recorder (k : Nat) : MwProg (List Nat) :=
  .modifyCtx (fun tr => tr ++ [k])
    (.callNext (fun r =>
      match r with
      | .ok _ => .modifyCtx (fun tr => tr ++ [k]) .done
      | .error e => .reject e))

/-! ## Response model (src/plugins/express/response.js, src/plugins/express/index.js)

Headers are an association list with lower-cased keys (node's outgoing-header
store is case-insensitive).  A JS body value is one of: `undefined` (never
set), `null` (explicit null), a string, a byte buffer (tracked by its length),
a stream handle (tracked by an identity tag), or a structured value (tracked
by its canonical JSON serialization, which is all the finalizer uses). -/

/-- The JS body variant for `ctx.body`. -/
inductive BodyVal where
  | vUndefined : BodyVal
  | vNull : BodyVal
  | vStr (s : String) : BodyVal
  | vBuf (len : Nat) : BodyVal
  | vStream (id : Nat) : BodyVal
  | vJson (serialized : String) : BodyVal
deriving Repr, DecidableEq

/-- JS `value == null` (matches both `null` and `undefined`). -/
def BodyVal.isNullish : BodyVal → Bool
  | .vUndefined => true
  | .vNull => true
  | _ => false

/-- JS truthiness of a body value (`this.body && ...` in the status setter):
`null`/`undefined` and the empty string are falsy, everything else truthy. -/
def BodyVal.truthy : BodyVal → Bool
  | .vUndefined => false
  | .vNull => false
  | .vStr s => s ≠ ""
  | _ => true

/-- ASCII lower-casing (kernel-computable stand-in for `toLowerCase`). -/
def lowerChar (c : Char) : Char :=
  if 65 ≤ c.toNat ∧ c.toNat ≤ 90 then Char.ofNat (c.toNat + 32) else c

/-- ASCII lower-casing of a string. -/
def lowerStr (s : String) : String :=
  String.mk (s.data.map lowerChar)

/-- ASCII upper-casing (kernel-computable stand-in for `toUpperCase`). -/
def upperChar (c : Char) : Char :=
  if 97 ≤ c.toNat ∧ c.toNat ≤ 122 then Char.ofNat (c.toNat - 32) else c

/-- ASCII upper-casing of a string. -/
def upperStr (s : String) : String :=
  String.mk (s.data.map upperChar)

/-- Decimal digit parsing for `parseInt(s, 10)` on a Content-Length value
(`|| 0` fallback included at the use site). -/
def parseDecimal (cs : List Char) : Option Nat :=
  if cs.isEmpty ∨ cs.any (fun c => ¬ c.isDigit) then none
  else some (cs.foldl (fun n c => n * 10 + (c.toNat - 48)) 0)

/-- Header list operations (node lower-cases outgoing header names). -/
def hlookup (hs : List (String × String)) (k : String) : Option String :=
  (hs.find? (fun p => p.1 = k)).map (fun p => p.2)

/-- Replace the value of the (unique) entry for `k` if present, else append —
node's `setHeader` on its case-insensitive header store. -/
def hupsert : List (String × String) → String → String → List (String × String)
  | [], k, v => [(k, v)]
  | p :: hs, k, v => if p.1 = k then (p.1, v) :: hs else p :: hupsert hs k v

/-- Remove header `k` — node's `removeHeader`. -/
def hremove (hs : List (String × String)) (k : String) : List (String × String) :=
  hs.filter (fun p => ¬ p.1 = k)

/-- The `statuses` package reason-phrase table (`statuses.message`), as used
for `statuses.message[code]` lookups.  (Entry 418 is omitted; no claim
depends on it.) -/
def statusMessageTable (c : Nat) : Option String :=
  match c with
  | 100 => some "Continue"
  | 101 => some "Switching Protocols"
  | 102 => some "Processing"
  | 103 => some "Early Hints"
  | 200 => some "OK"
  | 201 => some "Created"
  | 202 => some "Accepted"
  | 203 => some "Non-Authoritative Information"
  | 204 => some "No Content"
  | 205 => some "Reset Content"
  | 206 => some "Partial Content"
  | 207 => some "Multi-Status"
  | 208 => some "Already Reported"
  | 226 => some "IM Used"
  | 300 => some "Multiple Choices"
  | 301 => some "Moved Permanently"
  | 302 => some "Found"
  | 303 => some "See Other"
  | 304 => some "Not Modified"
  | 305 => some "Use Proxy"
  | 307 => some "Temporary Redirect"
  | 308 => some "Permanent Redirect"
  | 400 => some "Bad Request"
  | 401 => some "Unauthorized"
  | 402 => some "Payment Required"
  | 403 => some "Forbidden"
  | 404 => some "Not Found"
  | 405 => some "Method Not Allowed"
  | 406 => some "Not Acceptable"
  | 407 => some "Proxy Authentication Required"
  | 408 => some "Request Timeout"
  | 409 => some "Conflict"
  | 410 => some "Gone"
  | 411 => some "Length Required"
  | 412 => some "Precondition Failed"
  | 413 => some "Payload Too Large"
  | 414 => some "URI Too Long"
  | 415 => some "Unsupported Media Type"
  | 416 => some "Range Not Satisfiable"
  | 417 => some "Expectation Failed"
  | 421 => some "Misdirected Request"
  | 422 => some "Unprocessable Entity"
  | 423 => some "Locked"
  | 424 => some "Failed Dependency"
  | 425 => some "Too Early"
  | 426 => some "Upgrade Required"
  | 428 => some "Precondition Required"
  | 429 => some "Too Many Requests"
  | 431 => some "Request Header Fields Too Large"
  | 451 => some "Unavailable For Legal Reasons"
  | 500 => some "Internal Server Error"
  | 501 => some "Not Implemented"
  | 502 => some "Bad Gateway"
  | 503 => some "Service Unavailable"
  | 504 => some "Gateway Timeout"
  | 505 => some "HTTP Version Not Supported"
  | 506 => some "Variant Also Negotiates"
  | 507 => some "Insufficient Storage"
  | 508 => some "Loop Detected"
  | 509 => some "Bandwidth Limit Exceeded"
  | 510 => some "Not Extended"
  | 511 => some "Network Authentication Required"
  | _ => none

/-- `statuses.empty`: status codes that must carry no body. -/
def statusEmpty (c : Nat) : Bool :=
  c = 204 ∨ c = 205 ∨ c = 304

/-- The outgoing-response state of one request context: node's response
fields plus the context flags kept on the response facade. -/
structure Resp where
  statusCode : Nat := 404
  statusMessage : Option String := none
  explicitStatus : Bool := false
  explicitNullBody : Bool := false
  headerSent : Bool := false
  httpVersionMajor : Nat := 1
  headers : List (String × String) := []
  body : BodyVal := .vUndefined
deriving Repr, DecidableEq

/-- `response.has(field)` (case-insensitive header presence). -/
def hasHeader (r : Resp) (f : String) : Bool :=
  (hlookup r.headers (lowerStr f)).isSome

/-- `response.get(field)`. -/
def getHeader (r : Resp) (f : String) : Option String :=
  hlookup r.headers (lowerStr f)

/-- `response.set(field, value)`: a no-op once headers are sent. -/
def setHeader (r : Resp) (f v : String) : Resp :=
  if r.headerSent then r else { r with headers := hupsert r.headers (lowerStr f) v }

/-- `response.remove(field)`: a no-op once headers are sent. -/
def removeHeader (r : Resp) (f : String) : Resp :=
  if r.headerSent then r else { r with headers := hremove r.headers (lowerStr f) }

/-- The `mime-types.contentType` lookup restricted to the type names this
code base passes to the `type` setter; full mime strings (containing a `/`)
pass through unchanged (the real library may append a charset parameter, a
difference invisible to `get type`, which strips parameters). -/
def mimeContentType (t : String) : Option String :=
  if t = "html" then some "text/html; charset=utf-8"
  else if t = "text" then some "text/plain; charset=utf-8"
  else if t = "bin" then some "application/octet-stream"
  else if t = "json" then some "application/json; charset=utf-8"
  else if t.data.any (fun c => c = '/') then some t
  else none

/-- `set type(type)`: set Content-Type through the mime lookup, or remove it
when the lookup fails. -/
def typeSet (r : Resp) (t : String) : Resp :=
  match mimeContentType t with
  | some m => setHeader r "Content-Type" m
  | none => removeHeader r "Content-Type"

/-- `get type`: the Content-Type response header without parameters
(`type.split(";", 1)[0]`, i.e. the characters before the first `;`). -/
def getType (r : Resp) : String :=
  match getHeader r "Content-Type" with
  | none => ""
  | some t => String.mk (t.data.takeWhile (fun c => ¬ c = ';'))

/-- `set length(n)`: set Content-Length unless Transfer-Encoding is set. -/
def lengthSet (r : Resp) (n : Nat) : Resp :=
  if ¬ hasHeader r "Transfer-Encoding" then setHeader r "Content-Length" (toString n) else r

/-- `get length`: parse Content-Length when present, else derive a length
from the body (none for absent bodies and streams). -/
def lengthGet (r : Resp) : Option Nat :=
  if hasHeader r "Content-Length" then
    some ((parseDecimal ((getHeader r "Content-Length").getD "").data).getD 0)
  else
    match r.body with
    | .vUndefined => none
    | .vNull => none
    | .vStream _ => none
    | .vStr s => some s.utf8ByteSize
    | .vBuf n => some n
    | .vJson j => some j.utf8ByteSize

/-- `set body(null)` tail for the no-content case: record the explicit-null
tri-state and strip entity headers (response.js lines 106-110). -/
def finishNullBody (r : Resp) (value : BodyVal) : Resp :=
  let r := if value = .vNull then { r with explicitNullBody := true } else r
  removeHeader (removeHeader (removeHeader r "Content-Type") "Content-Length") "Transfer-Encoding"

/-- The status setter (response.js lines 55-63) for an in-range code: no-op
once headers are sent; otherwise record the explicit status, set the code
(and the reason phrase for HTTP/1), and null the body out when the new code
must carry no body.  The `assert` range check is embedded in `setStatusE`. -/
def setStatusCore (r : Resp) (code : Nat) : Resp :=
  if r.headerSent then r
  else
    let r := { r with
      explicitStatus := true
      statusCode := code
      statusMessage := if r.httpVersionMajor < 2 then statusMessageTable code else r.statusMessage }
    if r.body.truthy ∧ statusEmpty code then
      finishNullBody { r with body := .vNull } .vNull
    else r

/-- The status setter including its `assert` range check (`status code must
be a number`, `invalid status code`): statements about middleware that assign
a status go through this wrapper. -/
def setStatusE (r : Resp) (code : Nat) : Except String Resp :=
  if r.headerSent then .ok r
  else if 100 ≤ code ∧ code ≤ 999 then .ok (setStatusCore r code)
  else .error "invalid status code"

/-- JS `/^\s*</.test(value)`: optional leading whitespace then `<`. -/
def looksLikeHtml (s : String) : Bool :=
  match s.data.dropWhile (fun c => c.isWhitespace) with
  | [] => false
  | c :: _ => c = '<'

/-- The body setter (response.js lines 93-148).  The stream case's
`onFinished`/`destroy`/error-forwarding wiring is an event-loop side effect
with no bearing on the response state and is not modelled. -/
def setBody (r : Resp) (value : BodyVal) : Resp :=
  let original := r.body
  let r := { r with body := value }
  if value.isNullish then
    if ¬ statusEmpty r.statusCode then
      if getType r = "application/json" then { r with body := .vStr "null" }
      else finishNullBody (setStatusCore r 204) value
    else finishNullBody r value
  else
    let r := if ¬ r.explicitStatus then setStatusCore r 200 else r
    let wantType := ¬ hasHeader r "Content-Type"
    match value with
    | .vStr s =>
        let r := if wantType then typeSet r (if looksLikeHtml s then "html" else "text") else r
        lengthSet r s.utf8ByteSize
    | .vBuf n =>
        let r := if wantType then typeSet r "bin" else r
        lengthSet r n
    | .vStream _ =>
        let r := if original ≠ value ∧ ¬ original.isNullish then removeHeader r "Content-Length" else r
        if wantType then typeSet r "bin" else r
    | .vJson _ =>
        typeSet (removeHeader r "Content-Length") "json"
    | _ => r

/-- `ctx.message`: `res.statusMessage || statuses.message[status]`. -/
def respMessage (r : Resp) : Option String :=
  match r.statusMessage with
  | some m => if m = "" then statusMessageTable r.statusCode else some m
  | none => statusMessageTable r.statusCode

/-- What `handleResponse` hands to the transport. -/
inductive Payload where
  | noBody : Payload
  | str (s : String) : Payload
  | buf (len : Nat) : Payload
  | piped (id : Nat) : Payload
deriving Repr, DecidableEq

/-- The per-request view `handleResponse` needs (src/plugins/express/index.js
lines 85-133): the response state, the request method, and the
`ctx.respond`/writability guards. -/
structure Ctx where
  resp : Resp
  method : String := "GET"
  respond : Bool := true
  writable : Bool := true
deriving Repr, DecidableEq

/-- The response-finalization algorithm of `Application.handleRequest`
(src/plugins/express/index.js lines 85-133), returning the final response
state and the payload written to the transport. -/
def handleResponse (c : Ctx) : Resp × Payload :=
  if c.respond = false ∨ c.writable = false then (c.resp, .noBody)
  else
    let code := c.resp.statusCode
    if statusEmpty code then
      (setBody c.resp .vNull, .noBody)
    else if c.method = "HEAD" then
      let r := c.resp
      let r :=
        if ¬ r.headerSent ∧ ¬ hasHeader r "Content-Length" then
          match lengthGet r with
          | some n => lengthSet r n
          | none => r
        else r
      (r, .noBody)
    else if c.resp.body.isNullish then
      if c.resp.explicitNullBody then
        let r := removeHeader (removeHeader c.resp "Content-Type") "Transfer-Encoding"
        (lengthSet r 0, .noBody)
      else
        let r := c.resp
        let bodyStr :=
          if r.httpVersionMajor ≥ 2 then toString code
          else match respMessage r with
            | some m => if m = "" then toString code else m
            | none => toString code
        let r :=
          if ¬ r.headerSent then lengthSet (typeSet r "text") bodyStr.utf8ByteSize else r
        (r, .str bodyStr)
    else
      match c.resp.body with
      | .vBuf n => (c.resp, .buf n)
      | .vStr s => (c.resp, .str s)
      | .vStream sid => (c.resp, .piped sid)
      | .vJson j =>
          let r := if ¬ c.resp.headerSent then lengthSet c.resp j.utf8ByteSize else c.resp
          (r, .str j)
      | _ => (c.resp, .noBody)

/-- The response state `handleRequest` starts every request from:
`res.statusCode = 404` with nothing explicit yet. -/
def freshResp : Resp := {}

/-! ## Router (router part of src/plugins/express/response.js)

The route-pattern compiler is the external PathMatcher collaborator; a
layer's compiled pattern is therefore an opaque predicate on paths. -/

/-- One registered route layer: its method list (as computed by the `Layer`
constructor) and its compiled path matcher. -/
structure Layer where
  methods : List String
  pathTest : String → Bool

/-- The `Layer` constructor's method-list loop (response.js router lines
482-485): push each method upper-cased; whenever the pushed method is GET,
additionally unshift HEAD to the front. -/
def layerMethods (ms : List String) : List String :=
  ms.foldl
    (fun acc m =>
      let acc1 := acc ++ [upperStr m]
      if acc1.getLast? = some "GET" then "HEAD" :: acc1 else acc1)
    []

/-- Result of `Router.match`: the layers matched by path, the subset also
matched by method, and whether any method-bearing layer matched. -/
structure MatchResult where
  path : List Layer
  pathAndMethod : List Layer
  route : Bool

/-- `Router.match(path, method)` (router lines 972-985): every layer is
tested by path (`layer.match(path)`) in registration order; of those, layers that are
method-agnostic or contain the method also land in `pathAndMethod`, and any
method-bearing one sets `route`. -/
def routerMatch (stack : List Layer) (p : String) (method : String) : MatchResult :=
  stack.foldl
    (fun m l =>
      if l.pathTest p then
        let m := { m with path := m.path ++ [l] }
        if l.methods.isEmpty ∨ method ∈ l.methods then
          { m with
            pathAndMethod := m.pathAndMethod ++ [l]
            route := m.route ∨ ¬ l.methods.isEmpty }
        else m
      else m)
    ⟨[], [], false⟩

/-- The context state `allowedMethods` operates on after `next()` resolves:
the response, the request method, and `ctx.matched` (the by-path matches
accumulated by the router dispatch). -/
structure RCtx where
  resp : Resp
  method : String
  matched : List Layer

/-- The `allowed` accumulation of `allowedMethods`: JS object insertion
order with first-occurrence dedup. -/
def allowedList (matched : List Layer) : List String :=
  matched.foldl
    (fun acc l => l.methods.foldl (fun acc m => if m ∈ acc then acc else acc ++ [m]) acc)
    []

/-- `Router.allowedMethods()` in its default (non-throw) mode, modelling the
continuation that runs after `next()` resolves (router lines 796-834):
when the status is unset or 404, an unimplemented method yields 501 with the
Allow header, OPTIONS yields 200 with the Allow header and an empty body, and
a method outside the allowed set yields 405 with the Allow header. -/
def allowedMethodsRun (implemented : List String) (c : RCtx) : RCtx :=
  if ¬ (c.resp.statusCode = 0 ∨ c.resp.statusCode = 404) then c
  else
    let allowedArr := allowedList c.matched
    if ¬ c.method ∈ implemented then
      { c with resp := setHeader (setStatusCore c.resp 501) "Allow" (String.intercalate ", " allowedArr) }
    else if ¬ allowedArr.isEmpty then
      if c.method = "OPTIONS" then
        { c with resp := setHeader (setBody (setStatusCore c.resp 200) (.vStr "")) "Allow" (String.intercalate ", " allowedArr) }
      else if ¬ c.method ∈ allowedArr then
        { c with resp := setHeader (setStatusCore c.resp 405) "Allow" (String.intercalate ", " allowedArr) }
      else c
    else c

/-- The router's default implemented-method table (router line 651). -/
def defaultImplemented : List String :=
  ["HEAD", "OPTIONS", "GET", "PUT", "PATCH", "POST", "DELETE"]

/-- The compiled matcher for the pattern `/users` with default options
(matches the exact path, with optional trailing slash). -/
def usersMatcher (p : String) : Bool :=
  p = "/users" ∨ p = "/users/"

/-- The two layers of the C5 scenario: `router.get("/users", h)` and
`router.put("/users", h)` (the verb helpers register the single lower-cased
method name, which the `Layer` constructor upper-cases). -/
def usersLayers : List Layer :=
  [⟨layerMethods ["get"], usersMatcher⟩, ⟨layerMethods ["put"], usersMatcher⟩]

/-- The post-pipeline context for a request to `/users` with the given
method, in the C5 scenario: no handler ran (none of the registered layers
covers OPTIONS/POST/PURGE), so the response still carries the
`handleRequest` default 404 and `ctx.matched` holds the by-path matches. -/
def usersCtx (method : String) : RCtx :=
  { resp := freshResp
    method := method
    matched := (routerMatch usersLayers "/users" method).path }

/-! ## Proxy redirect rewriting (web-outgoing pass `setRedirectHostRewrite`)

`url.parse`/`url.format` are modelled for absolute `scheme://host[/path]`
URLs, the only shapes this pass sees (a `Location` of another shape simply
has a host that cannot match the target's). -/

/-- The slice of a parsed legacy URL object this pass touches. -/
structure UrlParts where
  protocol : String
  host : String
  path : String
deriving Repr, DecidableEq

/-- Split at the first `://`, returning the scheme and the remainder. -/
def splitScheme : List Char → Option (List Char × List Char)
  | [] => none
  | ':' :: '/' :: '/' :: rest => some ([], rest)
  | c :: t =>
      match splitScheme t with
      | some pr => some (c :: pr.1, pr.2)
      | none => none

/-- `url.parse` for `scheme://host[/path]` (node normalizes an empty path to
`/`). -/
def parseUrl (s : String) : UrlParts :=
  match splitScheme s.data with
  | some (pr, rest) =>
      let host := rest.takeWhile (fun c => ¬ c = '/')
      let path := rest.dropWhile (fun c => ¬ c = '/')
      { protocol := String.mk pr ++ ":"
        host := String.mk host
        path := if path.isEmpty then "/" else String.mk path }
  | none => { protocol := "", host := "", path := s }

/-- `url.format` on the mutated parse result. -/
def formatUrl (u : UrlParts) : String :=
  u.protocol ++ "//" ++ u.host ++ u.path

/-- `redirectRegex = /^201|30([1278])$/` applied to the decimal rendering of
a three-digit status code. -/
def redirectStatus (c : Nat) : Bool :=
  c = 201 ∨ c = 301 ∨ c = 302 ∨ c = 307 ∨ c = 308

/-- The proxy options consulted by `setRedirectHostRewrite`.  Absent (or JS
falsy) options are `none`/`false`. -/
structure RedirectOptions where
  target : String
  hostRewrite : Option String := none
  autoRewrite : Bool := false
  protocolRewrite : Option String := none
deriving Repr, DecidableEq

/-- The backend response fields this pass reads and writes. -/
structure ProxyRes where
  statusCode : Nat
  headers : List (String × String)
deriving Repr, DecidableEq

/-- `setRedirectHostRewrite(req, res, proxyRes, options)` (web-outgoing pass,
src/plugins/express/compose.js lines 68-84): on a redirect-class status with
a Location header and at least one rewrite option, and only when the
redirect host equals the target host, rewrite the Location host (explicit
`hostRewrite` first, else the inbound Host header under `autoRewrite`) and
optionally the protocol.  `reqHost` is `req.headers["host"]`. -/
def setRedirectHostRewrite (reqHost : String) (proxyRes : ProxyRes) (o : RedirectOptions) : ProxyRes :=
  if (o.hostRewrite.isSome ∨ o.autoRewrite ∨ o.protocolRewrite.isSome)
      ∧ (hlookup proxyRes.headers "location").isSome
      ∧ redirectStatus proxyRes.statusCode then
    let target := parseUrl o.target
    let url := parseUrl ((hlookup proxyRes.headers "location").getD "")
    if ¬ target.host = url.host then proxyRes
    else
      let url :=
        match o.hostRewrite with
        | some h => { url with host := h }
        | none => if o.autoRewrite then { url with host := reqHost } else url
      let url :=
        match o.protocolRewrite with
        | some pr => { url with protocol := pr }
        | none => url
      { proxyRes with headers := hupsert proxyRes.headers "location" (formatUrl url) }
  else proxyRes

/-! ## Set-Cookie attribute rewriting (`shared.rewriteCookieProperty`,
src/unnamed/part_007 lines 114-128)

The JS code is `header.replace(new RegExp("(;\\s*" + property + "=)([^;]+)", "i"), replacer)`:
a non-global, case-insensitive replace of the first occurrence of
`; <ws> property = value` (value being one or more non-semicolon characters).
We embed that as a left-to-right scanner over the character list. -/

/-- Case-insensitive character-list match of `pat` against a prefix of
`cs` (the regex `i` flag applied to the literal property name). -/
def ciStartsWith : List Char → List Char → Bool
  | [], _ => true
  | _ :: _, [] => false
  | p :: ps, c :: cs => lowerChar p = lowerChar c ∧ ciStartsWith ps cs

/-- Try the regex `(;\s*property=)([^;]+)` anchored at the head of `cs`.
On success returns the captured attribute lead-in `(;\s*property=)` exactly
as written in the header, the captured value, and the remaining characters. -/
def tryMatch (prop : List Char) (cs : List Char) : Option (List Char × List Char × List Char) :=
  match cs with
  | [] => none
  | c :: t =>
      if c = ';' then
        let ws := t.takeWhile (fun x => x.isWhitespace)
        let afterWs := t.dropWhile (fun x => x.isWhitespace)
        if ciStartsWith prop afterWs then
          match afterWs.drop prop.length with
          | [] => none
          | e :: rest2 =>
              if e = '=' then
                let val := rest2.takeWhile (fun x => ¬ x = ';')
                if val.isEmpty then none
                else some (c :: ws ++ afterWs.take prop.length ++ [e], val,
                  rest2.dropWhile (fun x => ¬ x = ';'))
              else none
        else none
      else none

/-- Leftmost-match search: the position where the non-global regex replace
fires, returning the unchanged portion before the match and the match
decomposition. -/
def scanFind (prop : List Char) : List Char → Option (List Char × List Char × List Char × List Char)
  | [] => none
  | c :: t =>
      match tryMatch prop (c :: t) with
      | some (pfx, val, rest) => some ([], pfx, val, rest)
      | none =>
          match scanFind prop t with
          | some (b, pfx, val, rest) => some (c :: b, pfx, val, rest)
          | none => none

/-- The object lookup `previousValue in config` on the rewrite table. -/
def cfgLookup (config : List (String × String)) (k : String) : Option String :=
  (config.find? (fun p => p.1 = k)).map (fun p => p.2)

/-- The replacer body: a specific entry for the current value wins, else the
`"*"` wildcard entry, else the match is left unchanged; a falsy (empty)
replacement drops the whole attribute. -/
def scanRewrite (prop : List Char) (config : List (String × String)) : List Char → List Char
  | [] => []
  | c :: t =>
      match tryMatch prop (c :: t) with
      | some (pfx, val, rest) =>
          (match cfgLookup config (String.mk val) with
          | some nv => if nv = "" then rest else pfx ++ nv.data ++ rest
          | none =>
              match cfgLookup config "*" with
              | some nv => if nv = "" then rest else pfx ++ nv.data ++ rest
              | none => pfx ++ val ++ rest)
      | none => c :: scanRewrite prop config t

/-- `shared.rewriteCookieProperty(header, config, property)` for a string
header (the array form maps this over its elements). -/
def rewriteCookieProperty (header : String) (config : List (String × String)) (property : String) : String :=
  String.mk (scanRewrite property.data config header.data)

/-! ## Context default error handler (`context.onerror`, src/unnamed/part_004
lines 65-106)

The handler first normalizes non-Error values and emits the app-level error
event (out-of-state side effects); with headers already sent (or the
response unwritable) it stops there.  Otherwise it rebuilds the response as
modelled below. -/

/-- The Error-shaped value reaching `onerror` after the non-error wrapping:
message, optional `status`/`statusCode`, optional `code` (e.g. `"ENOENT"`),
the `expose` flag, and any headers attached to the error. -/
structure ErrObj where
  message : String
  status : Option Nat := none
  statusCode : Option Nat := none
  code : Option String := none
  expose : Bool := false
  headers : List (String × String) := []
deriving Repr, DecidableEq

/-- The status-code selection of `onerror` (part_004 lines 93-99):
`err.status || err.statusCode`, overridden to 404 for `ENOENT`, defaulted to
500 when not a number with a known reason phrase. -/
def errStatus (e : ErrObj) : Nat :=
  let s0 := match e.status with
    | some n => some n
    | none => e.statusCode
  let s1 := if e.code = some "ENOENT" then some 404 else s0
  match s1 with
  | some n => if (statusMessageTable n).isSome then n else 500
  | none => 500

/-- `context.onerror(err)` (part_004 lines 65-106) on the response state:
with headers sent or the response unwritable, only the error event is
emitted; otherwise all outgoing headers are unset, the error's own headers
applied, Content-Type forced to plain text, the status selected via
`errStatus`, and the body written is the message when exposable, else the
reason phrase. -/
def ctxOnerror (r : Resp) (writable : Bool) (err : ErrObj) : Resp × Payload :=
  if r.headerSent ∨ ¬ writable then (r, .noBody)
  else
    let r := { r with headers := [] }
    let r := err.headers.foldl (fun r kv => setHeader r kv.1 kv.2) r
    let r := typeSet r "text"
    let sc := errStatus err
    let msg := if err.expose then err.message else (statusMessageTable sc).getD ""
    let r := setStatusCore r sc
    let r := lengthSet r msg.utf8ByteSize
    (r, .str msg)

/-- The error's attached headers as they land in the node header store
(lower-cased keys, later occurrences winning). -/
def errHdrs (err : ErrObj) : List (String × String) :=
  err.headers.foldl (fun hs kv => hupsert hs (lowerStr kv.1) kv.2) []


/-! ## Theorems

Helper lemmas first, then one theorem per specification claim (with
counterexamples and witnesses where applicable). -/

theorem hlookup_hupsert (k v f : String) :
    ∀ hs : List (String × String),
      hlookup (hupsert hs k v) f = if f = k then some v else hlookup hs f := by
  intro hs
  induction hs with
  | nil =>
      by_cases h : f = k
      · simp [hlookup, hupsert, List.find?, h]
      · have h2 : ¬ k = f := fun hh => h hh.symm
        simp [hlookup, hupsert, List.find?, h, h2]
  | cons p hs ih =>
      by_cases hp : p.1 = k
      · by_cases h : f = k <;>
          simp [hlookup, hupsert, List.find?_cons, hp, h, eq_comm]
      · by_cases h : f = k
        · subst h
          simp [hlookup, hupsert, List.find?_cons, hp] at *
          simpa [hlookup, Ne.symm] using ih  -- head key ≠ f
        · by_cases hpf : p.1 = f <;>
            simp_all [hlookup, hupsert, List.find?_cons]

theorem hlookup_hremove (k f : String) :
    ∀ hs : List (String × String),
      hlookup (hremove hs k) f = if f = k then none else hlookup hs f := by
  intro hs
  induction hs with
  | nil => by_cases h : f = k <;> simp [hlookup, hremove, h]
  | cons p hs ih =>
      by_cases hp : p.1 = k
      · rw [show hremove (p :: hs) k = hremove hs k by simp [hremove, List.filter_cons, hp]]
        rw [ih]
        by_cases h : f = k
        · simp [h]
        · have hpf : ¬ p.1 = f := by rw [hp]; exact fun hh => h hh.symm
          simp [h, hlookup, List.find?_cons, hpf]
      · rw [show hremove (p :: hs) k = p :: hremove hs k by
              simp [hremove, List.filter_cons, hp]]
        by_cases hpf : p.1 = f
        · have h : ¬ f = k := fun hh => hp (hpf.symm ▸ hh)
          simp [hlookup, List.find?_cons, hpf, h]
        · have step : hlookup (p :: hremove hs k) f = hlookup (hremove hs k) f := by
            simp [hlookup, List.find?_cons, hpf]
          rw [step, ih]
          by_cases h : f = k <;> simp [h, hlookup, List.find?_cons, hpf]

theorem recorder_pipeline (ks : List Nat) :
    ∀ (i : Nat) (s : PipeSt (List Nat)), s.cursor < (i : Int) →
      dispatch i (ks.map recorder) s =
        ({ cursor := (i : Int) + ks.length, ctx := s.ctx ++ ks ++ ks.reverse }, .ok ()) := by
  induction ks with
  | nil =>
      intro i s h
      simp [dispatch, not_le.mpr h]
  | cons k ks ih =>
      intro i s h
      have hnle : ¬ ((i : Int) ≤ s.cursor) := not_le.mpr h
      have hstep := ih (i + 1) { cursor := (i : Int), ctx := s.ctx ++ [k] } (by push_cast; omega)
      simp only [List.map_cons, dispatch, hnle, if_false, recorder, runProg]
      rw [hstep]
      simp only [runProg, Prod.mk.injEq, PipeSt.mk.injEq, List.reverse_cons, List.length_cons]
      refine ⟨⟨by push_cast; ring, by simp [List.append_assoc]⟩, trivial⟩

/-- C1: composing N middleware that each record their index before and after
`await next()` runs entries in registration order and the post-`next()` code
in strict reverse order — the observed trace is `0,…,N-1,N-1,…,0` — and the
pipeline resolves.  (In the embedding, synchronous and asynchronous steps are
the same object: `runProg` sequences every step through the same resolved
channel, so the ordering is independent of each step's style.) -/
theorem compose_onion_order (n : Nat) :
    compose ((List.range n).map recorder) [] =
      ({ cursor := (n : Int), ctx := List.range n ++ (List.range n).reverse }, .ok ()) := by
  have h := recorder_pipeline (List.range n) 0 { cursor := -1, ctx := [] } (by norm_num)
  simpa [compose] using h

/-- Witness for C1 at N = 3: the observed trace is `[0,1,2,2,1,0]`. -/
theorem compose_onion_order_witness :
    compose ((List.range 3).map recorder) [] =
      ({ cursor := (3 : Int), ctx := [0, 1, 2, 2, 1, 0] }, .ok ()) := by
  have h := compose_onion_order 3
  simpa [List.range_succ] using h

theorem runProg_cursor_mono {σ : Type} (p : MwProg σ)
    (nm : PipeSt σ → PipeSt σ × Except String Unit)
    (hnm : ∀ t, t.cursor ≤ (nm t).1.cursor) :
    ∀ s, s.cursor ≤ (runProg p nm s).1.cursor := by
  induction p with
  | done => intro s; simp [runProg]
  | reject msg => intro s; simp [runProg]
  | modifyCtx f k ih => intro s; simpa [runProg] using ih { s with ctx := f s.ctx }
  | callNext k ih =>
      intro s
      calc s.cursor ≤ (nm s).1.cursor := hnm s
        _ ≤ (runProg (k (nm s).2) nm (nm s).1).1.cursor := ih (nm s).2 (nm s).1
        _ = (runProg (.callNext k) nm s).1.cursor := by simp [runProg]

theorem dispatch_cursor_mono {σ : Type} (rest : List (MwProg σ)) :
    ∀ (i : Nat) (s : PipeSt σ), s.cursor ≤ (dispatch i rest s).1.cursor := by
  induction rest with
  | nil =>
      intro i s
      by_cases h : (i : Int) ≤ s.cursor
      · simp [dispatch, h]
      · simp only [dispatch, h, if_false]
        omega
  | cons p rest ih =>
      intro i s
      by_cases h : (i : Int) ≤ s.cursor
      · simp [dispatch, h]
      · have hmono := runProg_cursor_mono p (dispatch (i + 1) rest) (ih (i + 1))
          { s with cursor := (i : Int) }
        simp only [dispatch, h, if_false] at hmono ⊢
        omega

theorem dispatch_cursor_ge {σ : Type} (rest : List (MwProg σ)) (i : Nat) (s : PipeSt σ) :
    (i : Int) ≤ (dispatch i rest s).1.cursor := by
  by_cases h : (i : Int) ≤ s.cursor
  · cases rest <;> simp [dispatch, h]
  · cases rest with
    | nil => simp [dispatch, h]
    | cons p rest =>
        have hmono := runProg_cursor_mono p (dispatch (i + 1) rest) (dispatch_cursor_mono rest (i + 1))
          { s with cursor := (i : Int) }
        simp only [dispatch, h, if_false] at hmono ⊢
        omega

/-- C2: once a step's `next()` continuation (`dispatch i`) has completed
successfully, invoking it a second time from the resulting state rejects
with "next() called multiple times" and leaves the state untouched — the
downstream steps do not run a second time. -/
theorem next_called_twice_rejected {σ : Type} (i : Nat) (rest : List (MwProg σ))
    (s0 s1 : PipeSt σ) (h : dispatch i rest s0 = (s1, .ok ())) :
    dispatch i rest s1 = (s1, .error "next() called multiple times") := by
  have hge : (i : Int) ≤ s1.cursor := by
    have hg := dispatch_cursor_ge rest i s0
    rw [h] at hg
    exact hg
  cases rest <;> simp [dispatch, hge]

/-- Witness for C2: in the two-step pipeline `[recorder 1]`, the
continuation `dispatch 1` resolves once (recording `[1,1]`) and rejects on
its second invocation without touching the trace. -/
theorem next_called_twice_rejected_witness :
    dispatch 1 [recorder 1] { cursor := 2, ctx := [1, 1] } =
      ({ cursor := 2, ctx := [1, 1] }, .error "next() called multiple times") :=
  next_called_twice_rejected 1 [recorder 1] { cursor := 0, ctx := [] }
    { cursor := 2, ctx := [1, 1] } rfl

/-- C3 counterexample: from a fresh request state, a middleware that runs
`ctx.status = 404` (accepted by the status setter) and then `ctx.body = null`
finalizes with status 204, not 404 — the body setter forces 204 on every
non-empty status without consulting `_explicitStatus`.  (The repository's own
tests obtain the 404-preserving behavior only with the assignments in the
opposite order.) -/
theorem status_then_null_counterexample :
    setStatusE freshResp 404 = .ok (setStatusCore freshResp 404)
    ∧ (handleResponse { resp := setBody (setStatusCore freshResp 404) .vNull }).1.statusCode = 204
    ∧ ¬ (handleResponse { resp := setBody (setStatusCore freshResp 404) .vNull }).1.statusCode = 404 := by
  refine ⟨rfl, rfl, by decide⟩

/-- C3 amended: with the two assignments in the order the code (and its test
suite) supports — `ctx.body = null` first, then `ctx.status = 404` — the
finalized response keeps status 404, carries no Content-Type or
Transfer-Encoding, and reports Content-Length 0 with no payload. -/
theorem null_then_status_404_preserved :
    setStatusE (setBody freshResp .vNull) 404 = .ok (setStatusCore (setBody freshResp .vNull) 404)
    ∧ (handleResponse { resp := setStatusCore (setBody freshResp .vNull) 404 }).1.statusCode = 404
    ∧ hasHeader (handleResponse { resp := setStatusCore (setBody freshResp .vNull) 404 }).1 "Content-Type" = false
    ∧ hasHeader (handleResponse { resp := setStatusCore (setBody freshResp .vNull) 404 }).1 "Transfer-Encoding" = false
    ∧ getHeader (handleResponse { resp := setStatusCore (setBody freshResp .vNull) 404 }).1 "Content-Length" = some "0"
    ∧ (handleResponse { resp := setStatusCore (setBody freshResp .vNull) 404 }).2 = .noBody := by
  refine ⟨rfl, rfl, rfl, rfl, rfl, rfl⟩

theorem setHeader_fields (r : Resp) (f v : String) :
    (setHeader r f v).statusCode = r.statusCode
    ∧ (setHeader r f v).headerSent = r.headerSent
    ∧ (setHeader r f v).body = r.body
    ∧ (setHeader r f v).explicitStatus = r.explicitStatus := by
  unfold setHeader; split <;> simp

theorem removeHeader_fields (r : Resp) (f : String) :
    (removeHeader r f).statusCode = r.statusCode
    ∧ (removeHeader r f).headerSent = r.headerSent
    ∧ (removeHeader r f).body = r.body
    ∧ (removeHeader r f).explicitStatus = r.explicitStatus := by
  unfold removeHeader; split <;> simp

theorem typeSet_fields (r : Resp) (t : String) :
    (typeSet r t).statusCode = r.statusCode
    ∧ (typeSet r t).headerSent = r.headerSent
    ∧ (typeSet r t).body = r.body := by
  unfold typeSet
  rcases mimeContentType t with _ | m <;>
    simp [setHeader_fields, removeHeader_fields]

theorem lengthSet_fields (r : Resp) (n : Nat) :
    (lengthSet r n).statusCode = r.statusCode
    ∧ (lengthSet r n).headerSent = r.headerSent
    ∧ (lengthSet r n).body = r.body := by
  unfold lengthSet; split <;> simp [setHeader_fields]

theorem finishNullBody_fields (r : Resp) (v : BodyVal) :
    (finishNullBody r v).statusCode = r.statusCode
    ∧ (finishNullBody r v).headerSent = r.headerSent
    ∧ (finishNullBody r v).body = r.body := by
  unfold finishNullBody
  split <;> simp [removeHeader_fields]

theorem setStatusCore_statusCode (r : Resp) (c : Nat) (hhs : r.headerSent = false) :
    (setStatusCore r c).statusCode = c := by
  unfold setStatusCore
  rw [hhs]
  simp only [Bool.false_eq_true, if_false]
  split
  · simp [finishNullBody_fields]
  · rfl

theorem setStatusCore_headers (r : Resp) (c : Nat)
    (hne : ¬ (r.body.truthy = true ∧ statusEmpty c = true)) :
    (setStatusCore r c).headers = r.headers := by
  unfold setStatusCore
  split
  · rfl
  · dsimp only
    split
    · next h => exact absurd (by simpa using h) hne
    · rfl

theorem setStatusCore_headerSent (r : Resp) (c : Nat) :
    (setStatusCore r c).headerSent = r.headerSent := by
  unfold setStatusCore
  split
  · rfl
  · dsimp only
    split <;> simp [finishNullBody_fields]

theorem hasHeader_removeHeader (r : Resp) (f g : String) (hhs : r.headerSent = false) :
    hasHeader (removeHeader r f) g =
      if lowerStr g = lowerStr f then false else hasHeader r g := by
  simp only [removeHeader, hasHeader, hhs, Bool.false_eq_true, if_false]
  rw [hlookup_hremove]
  split <;> simp

theorem finishNullBody_strips (r : Resp) (v : BodyVal) (hhs : r.headerSent = false) :
    hasHeader (finishNullBody r v) "Content-Type" = false
    ∧ hasHeader (finishNullBody r v) "Content-Length" = false
    ∧ hasHeader (finishNullBody r v) "Transfer-Encoding" = false := by
  unfold finishNullBody
  have hsent : ∀ b : Bool,
      ((if v = BodyVal.vNull then { r with explicitNullBody := true } else r) : Resp).headerSent
        = false := by
    intro _; split <;> simpa
  set r0 : Resp := if v = BodyVal.vNull then { r with explicitNullBody := true } else r with hr0
  have h0 : r0.headerSent = false := hsent true
  have h1 : (removeHeader r0 "Content-Type").headerSent = false := by
    rw [(removeHeader_fields r0 "Content-Type").2.1]; exact h0
  have h2 : (removeHeader (removeHeader r0 "Content-Type") "Content-Length").headerSent = false := by
    rw [(removeHeader_fields _ "Content-Length").2.1]; exact h1
  refine ⟨?_, ?_, ?_⟩
  · rw [hasHeader_removeHeader _ _ _ h2]
    rw [if_neg (by decide)]
    rw [hasHeader_removeHeader _ _ _ h1]
    rw [if_neg (by decide)]
    rw [hasHeader_removeHeader _ _ _ h0]
    rw [if_pos (by decide)]
  · rw [hasHeader_removeHeader _ _ _ h2]
    rw [if_neg (by decide)]
    rw [hasHeader_removeHeader _ _ _ h1]
    rw [if_pos (by decide)]
  · rw [hasHeader_removeHeader _ _ _ h2]
    rw [if_pos (by decide)]

/-- C4: assigning a nullish body on a non-empty status forces status 204 and
strips Content-Type/Content-Length/Transfer-Encoding; except that with a
JSON content type the body becomes the literal string `"null"` and nothing
else changes; and on a status already in the 204/205/304 empty set the
status is likewise left unchanged (the entity headers are still stripped). -/
theorem body_null_transition (r : Resp) (v : BodyVal)
    (hhs : r.headerSent = false) (hv : v.isNullish = true) :
    (statusEmpty r.statusCode = false → getType r = "application/json" →
        setBody r v = { r with body := .vStr "null" })
    ∧ (statusEmpty r.statusCode = false → ¬ getType r = "application/json" →
        (setBody r v).statusCode = 204
        ∧ hasHeader (setBody r v) "Content-Type" = false
        ∧ hasHeader (setBody r v) "Content-Length" = false
        ∧ hasHeader (setBody r v) "Transfer-Encoding" = false)
    ∧ (statusEmpty r.statusCode = true →
        (setBody r v).statusCode = r.statusCode
        ∧ hasHeader (setBody r v) "Content-Type" = false
        ∧ hasHeader (setBody r v) "Content-Length" = false
        ∧ hasHeader (setBody r v) "Transfer-Encoding" = false) := by
  have hsent1 : ({ r with body := v } : Resp).headerSent = false := hhs
  refine ⟨?_, ?_, ?_⟩
  · intro h1 h2
    unfold setBody
    dsimp only
    rw [hv, if_pos rfl, if_pos (by simp [h1]), if_pos (by simpa [getType] using h2)]
  · intro h1 h2
    have hform : setBody r v = finishNullBody (setStatusCore { r with body := v } 204) v := by
      unfold setBody
      dsimp only
      rw [hv, if_pos rfl, if_pos (by simp [h1]), if_neg (by simpa [getType] using h2)]
    rw [hform]
    have hsent2 : (setStatusCore { r with body := v } 204).headerSent = false := by
      rw [setStatusCore_headerSent]; exact hsent1
    refine ⟨?_, ?_⟩
    · rw [(finishNullBody_fields _ _).1, setStatusCore_statusCode _ _ hsent1]
    · exact ⟨(finishNullBody_strips _ _ hsent2).1,
        (finishNullBody_strips _ _ hsent2).2.1,
        (finishNullBody_strips _ _ hsent2).2.2⟩
  · intro h1
    have hform : setBody r v = finishNullBody { r with body := v } v := by
      unfold setBody
      dsimp only
      rw [hv, if_pos rfl, if_neg (by simp [h1])]
    rw [hform]
    refine ⟨(finishNullBody_fields _ _).1, (finishNullBody_strips _ _ hsent1).1,
      (finishNullBody_strips _ _ hsent1).2.1, (finishNullBody_strips _ _ hsent1).2.2⟩

/-- Witness for C4 on a fresh 404 response (both hypotheses discharged at
`v = null`): status becomes 204 and the three entity headers are absent. -/
theorem body_null_transition_witness :
    (setBody freshResp .vNull).statusCode = 204
    ∧ hasHeader (setBody freshResp .vNull) "Content-Type" = false
    ∧ hasHeader (setBody freshResp .vNull) "Content-Length" = false
    ∧ hasHeader (setBody freshResp .vNull) "Transfer-Encoding" = false :=
  (body_null_transition freshResp .vNull rfl rfl).2.1 rfl (by decide)

theorem lengthSet_statusCode (r : Resp) (n : Nat) :
    (lengthSet r n).statusCode = r.statusCode := (lengthSet_fields r n).1

theorem typeSet_statusCode (r : Resp) (t : String) :
    (typeSet r t).statusCode = r.statusCode := (typeSet_fields r t).1

theorem removeHeader_statusCode (r : Resp) (f : String) :
    (removeHeader r f).statusCode = r.statusCode := (removeHeader_fields r f).1

/-- C10: assigning any non-null body (string, buffer, stream, or structured
value) sets the status to 200 when no status was explicitly set before, and
leaves the status unchanged when one was. -/
theorem body_assignment_status (r : Resp) (v : BodyVal)
    (hhs : r.headerSent = false) (hv : v.isNullish = false) :
    (setBody r v).statusCode = if r.explicitStatus = true then r.statusCode else 200 := by
  cases v with
  | vNull => simp [BodyVal.isNullish] at hv
  | vUndefined => simp [BodyVal.isNullish] at hv
  | vStr s =>
      unfold setBody
      dsimp only
      rw [if_neg (by simp [BodyVal.isNullish])]
      by_cases hexp : r.explicitStatus = true <;>
        simp [hexp, apply_ite Resp.statusCode, lengthSet_statusCode, typeSet_statusCode,
          setStatusCore_statusCode, hhs]
  | vBuf n =>
      unfold setBody
      dsimp only
      rw [if_neg (by simp [BodyVal.isNullish])]
      by_cases hexp : r.explicitStatus = true <;>
        simp [hexp, apply_ite Resp.statusCode, lengthSet_statusCode, typeSet_statusCode,
          setStatusCore_statusCode, hhs]
  | vStream sid =>
      unfold setBody
      dsimp only
      rw [if_neg (by simp [BodyVal.isNullish])]
      by_cases hexp : r.explicitStatus = true <;>
        simp [hexp, apply_ite Resp.statusCode, lengthSet_statusCode, typeSet_statusCode,
          removeHeader_statusCode, setStatusCore_statusCode, hhs]
  | vJson j =>
      unfold setBody
      dsimp only
      rw [if_neg (by simp [BodyVal.isNullish])]
      by_cases hexp : r.explicitStatus = true <;>
        simp [hexp, apply_ite Resp.statusCode, typeSet_statusCode, removeHeader_statusCode,
          setStatusCore_statusCode, hhs]

/-- Witness for C10: a fresh context (no explicit status) gets 200 from a
string body; an explicit 404 survives a string body assignment. -/
theorem body_assignment_status_witness :
    (setBody freshResp (.vStr "hi")).statusCode = 200
    ∧ (setBody { freshResp with explicitStatus := true } (.vStr "hi")).statusCode = 404 := by
  constructor
  · have h := body_assignment_status freshResp (.vStr "hi") rfl rfl
    simpa using h
  · have h := body_assignment_status { freshResp with explicitStatus := true } (.vStr "hi") rfl rfl
    simpa using h

/-- C5: with layers registered only for GET and PUT at `/users` (a
GET-registered layer implicitly carrying HEAD) and `allowedMethods`
installed: OPTIONS `/users` yields 200 with `Allow: HEAD, GET, PUT` and an
empty body; POST `/users` yields 405 with the same Allow header; a method
outside the router's configured table (PURGE) yields 501. -/
theorem allowed_methods_users :
    layerMethods ["get"] = ["HEAD", "GET"]
    ∧ (allowedMethodsRun defaultImplemented (usersCtx "OPTIONS")).resp.statusCode = 200
    ∧ getHeader (allowedMethodsRun defaultImplemented (usersCtx "OPTIONS")).resp "Allow"
        = some "HEAD, GET, PUT"
    ∧ (allowedMethodsRun defaultImplemented (usersCtx "OPTIONS")).resp.body = .vStr ""
    ∧ (allowedMethodsRun defaultImplemented (usersCtx "POST")).resp.statusCode = 405
    ∧ getHeader (allowedMethodsRun defaultImplemented (usersCtx "POST")).resp "Allow"
        = some "HEAD, GET, PUT"
    ∧ (allowedMethodsRun defaultImplemented (usersCtx "PURGE")).resp.statusCode = 501 :=
  ⟨rfl, rfl, rfl, rfl, rfl, rfl, rfl⟩

/-- C6: the Location header is rewritten only on 201/301/302/307/308 and
only when the redirect host equals the target's host, `hostRewrite` takes
precedence over `autoRewrite` (the rewritten host is `hostRewrite`'s value
whenever it is set, whatever `autoRewrite` is), and in particular with
target `http://backend.com` and `hostRewrite = "ext-manual.com"` a 302
`Location: http://backend.com/` becomes `http://ext-manual.com/` while a
Location on a different host passes through unmodified. -/
theorem redirect_location_rewrite (reqHost : String) (pr : ProxyRes) (o : RedirectOptions) :
    (redirectStatus pr.statusCode = false → setRedirectHostRewrite reqHost pr o = pr)
    ∧ (∀ loc, hlookup pr.headers "location" = some loc →
        ¬ (parseUrl o.target).host = (parseUrl loc).host →
        setRedirectHostRewrite reqHost pr o = pr)
    ∧ (∀ loc h, hlookup pr.headers "location" = some loc →
        o.hostRewrite = some h → o.protocolRewrite = none →
        redirectStatus pr.statusCode = true →
        (parseUrl o.target).host = (parseUrl loc).host →
        setRedirectHostRewrite reqHost pr o =
          { pr with headers :=
              hupsert pr.headers "location" (formatUrl { parseUrl loc with host := h }) })
    ∧ setRedirectHostRewrite "inbound.example"
        { statusCode := 302, headers := [("location", "http://backend.com/")] }
        { target := "http://backend.com", hostRewrite := some "ext-manual.com" } =
        { statusCode := 302, headers := [("location", "http://ext-manual.com/")] }
    ∧ setRedirectHostRewrite "inbound.example"
        { statusCode := 302, headers := [("location", "http://somewhere.com/")] }
        { target := "http://backend.com", hostRewrite := some "ext-manual.com" } =
        { statusCode := 302, headers := [("location", "http://somewhere.com/")] } := by
  refine ⟨?_, ?_, ?_, rfl, rfl⟩
  · intro hst
    unfold setRedirectHostRewrite
    rw [if_neg (by simp [hst])]
  · intro loc hloc hne
    unfold setRedirectHostRewrite
    split
    · rw [hloc]
      dsimp only [Option.getD]
      rw [if_pos hne]
    · rfl
  · intro loc h hloc hhr hpr hst hhost
    unfold setRedirectHostRewrite
    rw [if_pos (by simp [hloc, hst, hhr])]
    rw [hloc]
    dsimp only [Option.getD]
    rw [if_neg (by simpa using hhost), hhr, hpr]

/-- Witness for C6, discharging the rewrite conjunct's hypotheses at the
concrete 302 example. -/
theorem redirect_location_rewrite_witness :
    setRedirectHostRewrite "inbound.example"
      { statusCode := 302, headers := [("location", "http://backend.com/")] }
      { target := "http://backend.com", hostRewrite := some "ext-manual.com" } =
      { statusCode := 302, headers :=
          hupsert [("location", "http://backend.com/")] "location"
            (formatUrl { parseUrl "http://backend.com/" with host := "ext-manual.com" }) } :=
  (redirect_location_rewrite "inbound.example"
      { statusCode := 302, headers := [("location", "http://backend.com/")] }
      { target := "http://backend.com", hostRewrite := some "ext-manual.com" }).2.2.1
    "http://backend.com/" "ext-manual.com" rfl rfl rfl (by decide) rfl

theorem tryMatch_decomp (prop cs pfx val rest : List Char)
    (h : tryMatch prop cs = some (pfx, val, rest)) :
    pfx ++ val ++ rest = cs := by
  cases cs with
  | nil => simp [tryMatch] at h
  | cons c t =>
      unfold tryMatch at h
      dsimp only at h
      split_ifs at h with hc hpre
      · split at h
        · exact absurd h (by simp)
        · next e rest2 heq =>
            split_ifs at h with he hval
            simp only [Option.some.injEq, Prod.mk.injEq] at h
            obtain ⟨h1, h2, h3⟩ := h
            subst h1
            subst h2
            subst h3
            subst hc
            subst he
            have ht : t.takeWhile (fun x => x.isWhitespace)
                ++ t.dropWhile (fun x => x.isWhitespace) = t :=
              List.takeWhile_append_dropWhile _ _
            have hsplit : (t.dropWhile (fun x => x.isWhitespace)).take prop.length
                ++ (t.dropWhile (fun x => x.isWhitespace)).drop prop.length
                = t.dropWhile (fun x => x.isWhitespace) := List.take_append_drop _ _
            have hr2 : rest2.takeWhile (fun x => ¬ x = ';')
                ++ rest2.dropWhile (fun x => ¬ x = ';') = rest2 :=
              List.takeWhile_append_dropWhile _ _
            rw [heq] at hsplit
            simp only [List.cons_append, List.append_assoc, List.singleton_append,
              List.nil_append]
            rw [hr2, hsplit, ht]

theorem scanFind_decomp (prop : List Char) :
    ∀ (cs b pfx val rest : List Char),
      scanFind prop cs = some (b, pfx, val, rest) → b ++ pfx ++ val ++ rest = cs := by
  intro cs
  induction cs with
  | nil => intro b pfx val rest h; simp [scanFind] at h
  | cons c t ih =>
      intro b pfx val rest h
      unfold scanFind at h
      cases htm : tryMatch prop (c :: t) with
      | some m =>
          obtain ⟨pfx0, val0, rest0⟩ := m
          rw [htm] at h
          simp only [Option.some.injEq, Prod.mk.injEq] at h
          obtain ⟨h1, h2, h3, h4⟩ := h
          subst h1
          have hd := tryMatch_decomp prop (c :: t) pfx0 val0 rest0 htm
          rw [h2, h3, h4] at hd
          simpa using hd
      | none =>
          rw [htm] at h
          cases hsf : scanFind prop t with
          | none => rw [hsf] at h; simp at h
          | some m =>
              obtain ⟨b2, pfx2, val2, rest2⟩ := m
              rw [hsf] at h
              simp only [Option.some.injEq, Prod.mk.injEq] at h
              obtain ⟨h1, h2, h3, h4⟩ := h
              subst h1
              subst h2
              subst h3
              subst h4
              have hd := ih b2 pfx2 val2 rest2 hsf
              simp [← hd]

theorem scanRewrite_none (prop : List Char) (config : List (String × String)) :
    ∀ cs : List Char, scanFind prop cs = none → scanRewrite prop config cs = cs := by
  intro cs
  induction cs with
  | nil => intro _; rfl
  | cons c t ih =>
      intro h
      unfold scanFind at h
      unfold scanRewrite
      cases htm : tryMatch prop (c :: t) with
      | some m => rw [htm] at h; simp at h
      | none =>
          rw [htm] at h
          dsimp only
          cases hsf : scanFind prop t with
          | some m => rw [hsf] at h; simp at h
          | none => rw [ih hsf]

theorem scanRewrite_some (prop : List Char) (config : List (String × String)) :
    ∀ (cs b pfx val rest : List Char),
      scanFind prop cs = some (b, pfx, val, rest) →
      scanRewrite prop config cs =
        b ++ (match cfgLookup config (String.mk val) with
          | some nv => if nv = "" then rest else pfx ++ nv.data ++ rest
          | none =>
              match cfgLookup config "*" with
              | some nv => if nv = "" then rest else pfx ++ nv.data ++ rest
              | none => pfx ++ val ++ rest) := by
  intro cs
  induction cs with
  | nil => intro b pfx val rest h; simp [scanFind] at h
  | cons c t ih =>
      intro b pfx val rest h
      unfold scanFind at h
      unfold scanRewrite
      cases htm : tryMatch prop (c :: t) with
      | some m =>
          obtain ⟨pfx0, val0, rest0⟩ := m
          rw [htm] at h
          simp only [Option.some.injEq, Prod.mk.injEq] at h
          obtain ⟨h1, h2, h3, h4⟩ := h
          subst h1
          subst h2
          subst h3
          subst h4
          simp
      | none =>
          rw [htm] at h
          dsimp only
          cases hsf : scanFind prop t with
          | none => rw [hsf] at h; simp at h
          | some m =>
              obtain ⟨b2, pfx2, val2, rest2⟩ := m
              rw [hsf] at h
              simp only [Option.some.injEq, Prod.mk.injEq] at h
              obtain ⟨h1, h2, h3, h4⟩ := h
              subst h1
              subst h2
              subst h3
              subst h4
              rw [ih b2 pfx2 val2 rest2 hsf]
              simp

/-- C7: for a Set-Cookie header whose first `property=value` attribute match
decomposes as `before ++ lead-in ++ value ++ after`: a specific config entry
for the current value is used; otherwise the `"*"` wildcard entry; otherwise
the header is returned unchanged (also when no attribute matches at all);
and an empty selected replacement strips the whole attribute (the lead-in
`"; property="` included). -/
theorem cookie_rewrite_policy (header property : String) (config : List (String × String)) :
    (scanFind property.data header.data = none →
        rewriteCookieProperty header config property = header)
    ∧ (∀ b pfx val rest : List Char,
        scanFind property.data header.data = some (b, pfx, val, rest) →
        (∀ v, cfgLookup config (String.mk val) = some v → ¬ v = "" →
            rewriteCookieProperty header config property = String.mk (b ++ pfx ++ v.data ++ rest))
        ∧ (cfgLookup config (String.mk val) = none →
            ∀ w, cfgLookup config "*" = some w → ¬ w = "" →
            rewriteCookieProperty header config property = String.mk (b ++ pfx ++ w.data ++ rest))
        ∧ (cfgLookup config (String.mk val) = none → cfgLookup config "*" = none →
            rewriteCookieProperty header config property = header)
        ∧ (cfgLookup config (String.mk val) = some "" ∨
            (cfgLookup config (String.mk val) = none ∧ cfgLookup config "*" = some "") →
            rewriteCookieProperty header config property = String.mk (b ++ rest))) := by
  constructor
  · intro hnone
    unfold rewriteCookieProperty
    rw [scanRewrite_none property.data config header.data hnone]
  · intro b pfx val rest hfind
    have hrw := scanRewrite_some property.data config header.data b pfx val rest hfind
    have hdec := scanFind_decomp property.data header.data b pfx val rest hfind
    refine ⟨?_, ?_, ?_, ?_⟩
    · intro v hv hvne
      unfold rewriteCookieProperty
      rw [hrw, hv]
      simp [hvne, List.append_assoc]
    · intro hnone w hw hwne
      unfold rewriteCookieProperty
      rw [hrw, hnone, hw]
      simp [hwne, List.append_assoc]
    · intro hnone hwnone
      unfold rewriteCookieProperty
      rw [hrw, hnone, hwnone]
      dsimp only
      rw [show b ++ (pfx ++ val ++ rest) = b ++ pfx ++ val ++ rest by simp [List.append_assoc]]
      rw [hdec]
    · intro hsel
      unfold rewriteCookieProperty
      rcases hsel with hv | ⟨hnone, hw⟩
      · rw [hrw, hv]
        simp
      · rw [hrw, hnone, hw]
        simp

/-- Witness for C7: a specific domain entry rewrites the first `domain`
attribute of a concrete Set-Cookie header. -/
theorem cookie_rewrite_policy_witness :
    rewriteCookieProperty "jwt=t; domain=backend.com; path=/" [("backend.com", "ext.com")] "domain"
      = String.mk
          ("jwt=t".data ++ "; domain=".data ++ "ext.com".data ++ "; path=/".data) :=
  (((cookie_rewrite_policy "jwt=t; domain=backend.com; path=/" "domain"
      [("backend.com", "ext.com")]).2
    "jwt=t".data "; domain=".data "backend.com".data "; path=/".data rfl).1
    "ext.com" rfl (by decide))

theorem getHeader_setHeader (r : Resp) (f v g : String) (hhs : r.headerSent = false) :
    getHeader (setHeader r f v) g =
      if lowerStr g = lowerStr f then some v else getHeader r g := by
  simp only [setHeader, getHeader, hhs, Bool.false_eq_true, if_false]
  rw [hlookup_hupsert]

theorem foldl_setHeader (hs : List (String × String)) :
    ∀ r : Resp, r.headerSent = false →
      hs.foldl (fun r kv => setHeader r kv.1 kv.2) r =
        { r with headers := hs.foldl (fun a kv => hupsert a (lowerStr kv.1) kv.2) r.headers } := by
  induction hs with
  | nil => intro r _; rfl
  | cons kv hs ih =>
      intro r hhs
      rw [List.foldl_cons, List.foldl_cons]
      rw [ih (setHeader r kv.1 kv.2) (by rw [(setHeader_fields r kv.1 kv.2).2.1]; exact hhs)]
      simp [setHeader, hhs]

/-- C8 counterexample: for an error carrying both its own status 403 and
`code = "ENOENT"`, `onerror` responds 404 — the ENOENT mapping overrides the
error's own status, contradicting the claimed priority order that puts the
error's own status first. -/
theorem onerror_status_priority_counterexample :
    (ctxOnerror freshResp true
        { message := "boom", status := some 403, code := some "ENOENT" }).1.statusCode = 404
    ∧ ¬ (ctxOnerror freshResp true
        { message := "boom", status := some 403, code := some "ENOENT" }).1.statusCode = 403 := by
  refine ⟨rfl, by decide⟩

/-- C8 amended: with headers not yet sent, `onerror` clears all
previously-set headers, applies the error's own headers, forces Content-Type
to plain text, selects the status with the ENOENT-to-404 mapping taking
precedence over the error's own status (then `err.status || err.statusCode`
when it names a known reason phrase, else 500), and writes the error's
message exactly when the error is exposable, else the reason phrase of the
selected status.  (The Content-Type and prior-header clauses are stated for
selected statuses outside the 204/205/304 empty set or falsy bodies; an
empty-set status with a truthy leftover body re-strips the entity headers.) -/
theorem onerror_response (r : Resp) (err : ErrObj)
    (hhs : r.headerSent = false)
    (hne : ¬ (r.body.truthy = true ∧ statusEmpty (errStatus err) = true)) :
    (ctxOnerror r true err).1.statusCode = errStatus err
    ∧ (ctxOnerror r true err).2 =
        .str (if err.expose then err.message else (statusMessageTable (errStatus err)).getD "")
    ∧ getHeader (ctxOnerror r true err).1 "Content-Type" = some "text/plain; charset=utf-8"
    ∧ (∀ f : String, ¬ lowerStr f = "content-type" → ¬ lowerStr f = "content-length" →
        getHeader (ctxOnerror r true err).1 f = hlookup (errHdrs err) (lowerStr f)) := by
  have hguard : ¬ (r.headerSent = true ∨ ¬ (true : Bool) = true) := by simp [hhs]
  have hfold := foldl_setHeader err.headers { r with headers := [] } hhs
  have hform : ctxOnerror r true err =
      (lengthSet
        (setStatusCore
          (typeSet (err.headers.foldl (fun r kv => setHeader r kv.1 kv.2) { r with headers := [] })
            "text")
          (errStatus err))
        (if err.expose then err.message else (statusMessageTable (errStatus err)).getD
          "").utf8ByteSize,
      .str (if err.expose then err.message
        else (statusMessageTable (errStatus err)).getD "")) := by
    unfold ctxOnerror
    rw [if_neg hguard]
  rw [hform]
  set r1 : Resp :=
    err.headers.foldl (fun r kv => setHeader r kv.1 kv.2) { r with headers := [] } with hr1def
  have h1hdr : r1.headers = errHdrs err := by rw [hfold]; rfl
  have h1sent : r1.headerSent = false := by rw [hfold]; exact hhs
  have h1body : r1.body = r.body := by rw [hfold]
  have hrt : ∀ fld : String, getHeader (typeSet r1 "text") fld =
      if lowerStr fld = "content-type" then some "text/plain; charset=utf-8"
      else hlookup (errHdrs err) (lowerStr fld) := by
    intro fld
    show getHeader (setHeader r1 "Content-Type" "text/plain; charset=utf-8") fld = _
    rw [getHeader_setHeader _ _ _ _ h1sent]
    rw [show lowerStr "Content-Type" = "content-type" from rfl]
    unfold getHeader
    rw [h1hdr]
  have hsent2 : (typeSet r1 "text").headerSent = false := by
    rw [(typeSet_fields _ _).2.1]; exact h1sent
  have hhdrs3 : (setStatusCore (typeSet r1 "text") (errStatus err)).headers =
      (typeSet r1 "text").headers :=
    setStatusCore_headers _ _ (by rw [(typeSet_fields _ _).2.2, h1body]; exact hne)
  have hsent3 : (setStatusCore (typeSet r1 "text") (errStatus err)).headerSent = false := by
    rw [setStatusCore_headerSent]; exact hsent2
  have hget3 : ∀ fld : String,
      getHeader (setStatusCore (typeSet r1 "text") (errStatus err)) fld =
      getHeader (typeSet r1 "text") fld := by
    intro fld
    show hlookup _ (lowerStr fld) = hlookup _ (lowerStr fld)
    rw [hhdrs3]
  have hget4 : ∀ fld : String, ¬ lowerStr fld = "content-length" →
      getHeader (lengthSet (setStatusCore (typeSet r1 "text") (errStatus err))
        (if err.expose then err.message
          else (statusMessageTable (errStatus err)).getD "").utf8ByteSize) fld =
      getHeader (setStatusCore (typeSet r1 "text") (errStatus err)) fld := by
    intro fld hfld
    unfold lengthSet
    split
    · rw [getHeader_setHeader _ _ _ _ hsent3]
      rw [if_neg (by simpa using hfld)]
    · rfl
  refine ⟨?_, rfl, ?_, ?_⟩
  · rw [(lengthSet_fields _ _).1, setStatusCore_statusCode _ _ hsent2]
  · rw [hget4 "Content-Type" (by decide), hget3, hrt]
    rw [if_pos (by decide)]
  · intro f hf1 hf2
    rw [hget4 f hf2, hget3, hrt, if_neg hf1]

/-- Witness for C8: an exposable 403 error with one attached header, from a
state with a stale header and no body. -/
theorem onerror_response_witness :
    (ctxOnerror { freshResp with headers := [("stale", "1")] } true
        { message := "boom", status := some 403, expose := true,
          headers := [("X-Custom", "1")] }).1.statusCode = 403
    ∧ (ctxOnerror { freshResp with headers := [("stale", "1")] } true
        { message := "boom", status := some 403, expose := true,
          headers := [("X-Custom", "1")] }).2 = .str "boom"
    ∧ getHeader (ctxOnerror { freshResp with headers := [("stale", "1")] } true
        { message := "boom", status := some 403, expose := true,
          headers := [("X-Custom", "1")] }).1 "Content-Type"
        = some "text/plain; charset=utf-8" := by
  refine ⟨?_, ?_, ?_⟩
  · exact (onerror_response { freshResp with headers := [("stale", "1")] }
      { message := "boom", status := some 403, expose := true, headers := [("X-Custom", "1")] }
      rfl (by decide)).1
  · have h := (onerror_response { freshResp with headers := [("stale", "1")] }
      { message := "boom", status := some 403, expose := true, headers := [("X-Custom", "1")] }
      rfl (by decide)).2.1
    simpa using h
  · exact (onerror_response { freshResp with headers := [("stale", "1")] }
      { message := "boom", status := some 403, expose := true, headers := [("X-Custom", "1")] }
      rfl (by decide)).2.2.1
